import Mathlib

/-!
Formal model of the crawl engine of the `webCrawl_Bot` repository
(`src/crawler.py`, collaborator `src/keyword_processor.py`).

The Python code is shallowly embedded: URLs are strings (lists of
characters), the pieces of interpreter/library behaviour the crawler relies
on (`urllib.parse.urlparse`, `urllib.parse.urlunparse`, `str.lower`,
substring tests) are modelled for the URL shapes the crawler manipulates,
and external collaborators (the network, `nltk` tokenisation, `re` regex
search, `math.log`) are passed in as oracle parameters.  Python `float`
arithmetic is modelled with rationals.
-/

namespace Crawler

/-! ## Character / string helpers (model of `str.lower` and friends) -/

/-- Lowercasing a list of characters, the model of Python `str.lower`
restricted to ASCII (which is all the crawler's rules manipulate).
`Char.toLower` maps `A`-`Z` to `a`-`z` and fixes everything else. -/
def lower (l : List Char) : List Char := l.map Char.toLower

/-- Model of Python `str.lower` on `String`. -/
def lowerStr (s : String) : String := ⟨lower s.data⟩

/-! ## Generic list splitting used to model `urllib.parse` -/

/-- Split a list at the first occurrence of `c`: returns the part before it
and, when `c` occurs, the part after it. -/
def splitFirst (c : Char) : List Char → List Char × Option (List Char)
  | [] => ([], none)
  | x :: xs =>
      if x = c then ([], some xs)
      else
        let r := splitFirst c xs
        (x :: r.1, r.2)

/-- Split a list at the last occurrence of `c` (used to model
`str.rfind` and `urllib`'s parameter splitting). -/
def lastSplit (c : Char) : List Char → Option (List Char × List Char)
  | [] => none
  | x :: xs =>
      match lastSplit c xs with
      | some r => some (x :: r.1, r.2)
      | none => if x = c then some ([], xs) else none

/-! ## Model of `urllib.parse.urlparse` / `urlunparse`

The crawler uses `urlparse` on `scheme://netloc/path?query#fragment`
shaped URLs.  The model below reproduces CPython's splitting order for
this class of inputs: scheme before the first `:` when it is a nonempty
run of scheme characters, netloc after `//` up to the first `/ ? #`,
fragment after the first `#`, query after the first `?`, and path
parameters after a `;` in the last path segment. -/

structure ParsedUrl where
  scheme : List Char
  netloc : List Char
  path : List Char
  params : List Char
  query : List Char
  fragment : List Char
deriving DecidableEq, Repr

/-- Characters permitted in a URL scheme (`RFC 3986` as accepted by
`urllib`): letters, digits, `+`, `-`, `.`. -/
def isSchemeChar (c : Char) : Bool :=
  c.isAlpha || c.isDigit || c = '+' || c = '-' || c = '.'

/-- Characters that end the netloc portion of a URL. -/
def isNetlocStop (c : Char) : Bool := c = '/' || c = '?' || c = '#'

/-- Take the netloc: the longest prefix free of `/`, `?`, `#`. -/
def splitNetloc : List Char → List Char × List Char
  | [] => ([], [])
  | x :: xs =>
      if isNetlocStop x then ([], x :: xs)
      else
        let r := splitNetloc xs
        (x :: r.1, r.2)

/-- Model of `urllib.parse._splitparams`: parameters are everything after a
`;` found in the last path segment. -/
def splitParams (p : List Char) : List Char × List Char :=
  if '/' ∈ p then
    match lastSplit '/' p with
    | some r =>
        match splitFirst ';' r.2 with
        | (b1, some b2) => (r.1 ++ '/' :: b1, b2)
        | (_, none) => (p, [])
    | none => (p, [])
  else
    match splitFirst ';' p with
    | (p1, some p2) => (p1, p2)
    | (_, none) => (p, [])

/-- Scheme stage of `urlparse`: the text before the first `:` is the
scheme when it is a nonempty run of scheme characters; it is lowercased,
as CPython does. -/
def parseScheme (url : List Char) : List Char × List Char :=
  match splitFirst ':' url with
  | (pre, some r) =>
      if pre ≠ [] ∧ pre.all isSchemeChar then (lower pre, r) else (([] : List Char), url)
  | (_, none) => (([] : List Char), url)

/-- Netloc stage of `urlparse`: present only after a leading `//`. -/
def parseNetloc (rest : List Char) : List Char × List Char :=
  if rest.take 2 = ['/', '/'] then splitNetloc (rest.drop 2) else (([] : List Char), rest)

/-- Model of `urllib.parse.urlparse` for the URL fragment the crawler
handles. -/
def urlparse (url : List Char) : ParsedUrl :=
  let sp := parseScheme url
  let np := parseNetloc sp.2
  let bf := splitFirst '#' np.2
  let bq := splitFirst '?' bf.1
  let pp := splitParams bq.1
  ⟨sp.1, np.1, pp.1, pp.2, (bq.2).getD [], (bf.2).getD []⟩

/-- Decidable equality of exception-aware results. -/
instance instDecEqExcept {ε α : Type} [DecidableEq ε] [DecidableEq α] :
    DecidableEq (Except ε α)
  | Except.ok a, Except.ok b =>
      if h : a = b then isTrue (by rw [h]) else isFalse (fun hc => h (Except.ok.inj hc))
  | Except.ok _, Except.error _ => isFalse (fun hc => Except.noConfusion hc)
  | Except.error _, Except.ok _ => isFalse (fun hc => Except.noConfusion hc)
  | Except.error e, Except.error f =>
      if h : e = f then isTrue (by rw [h]) else isFalse (fun hc => h (Except.error.inj hc))

/-- Model of CPython's `urllib.parse._hostinfo` after the userinfo was
split off (`netloc.rpartition('@')[2]`): when a `[` is present, the host
is the text between `[` and `]` and the port the text after a `:`
following the `]` (`bracketed.partition(']')`, then `partition(':')`);
otherwise the host is the text before the first `:` and the port the text
after it.  The port is returned as a character list, empty when absent
(CPython maps an empty port string to `None`, as `netlocPort` does
below). -/
def hostinfoAux (hostinfo : List Char) : List Char × List Char :=
  if '[' ∈ hostinfo then
    match splitFirst '[' hostinfo with
    | (_, some bracketed) =>
        match splitFirst ']' bracketed with
        | (host, some afterKet) => (host, ((splitFirst ':' afterKet).2).getD [])
        | (host, none) => (host, [])
    | (_, none) => (hostinfo, [])
  else ((splitFirst ':' hostinfo).1, ((splitFirst ':' hostinfo).2).getD [])

/-- Model of `_hostinfo` on the netloc: any userinfo up to the last `@` is
dropped first (`rpartition('@')`). -/
def hostinfoOf (n : List Char) : List Char × List Char :=
  hostinfoAux (match lastSplit '@' n with
    | some r => r.2
    | none => n)

/-- Model of `urlparse(...).hostname`: the host part of `_hostinfo`,
lowercased up to a `%` separator (CPython keeps the case of a scoped-IPv6
zone id: `hostname.partition('%')`, lowercasing only the first part).
CPython returns `None` for an empty host; such netlocs lie outside
`ValidUrl`, the domain of the idempotence theorem. -/
def netlocHostname (n : List Char) : List Char :=
  match splitFirst '%' (hostinfoOf n).1 with
  | (host, some zone) => lower host ++ '%' :: zone
  | (host, none) => lower host

/-- Decimal value of a digit string. -/
def digitsVal (l : List Char) : Nat := l.foldl (fun a c => 10 * a + (c.toNat - 48)) 0

/-- Model of `urlparse(...).port`: the port part of `_hostinfo` converted
with `int(port, 10)` and range-checked, `None` when absent or empty; a
non-digit port raises `ValueError` (modelled as `Except.error`), as does
a value outside `0..65535`.  (`int(·, 10)` additionally tolerates an
optional sign, surrounding whitespace and `_` digit grouping; such ports
are modelled as errors here and lie outside `ValidUrl`.) -/
def netlocPort (n : List Char) : Except Unit (Option Nat) :=
  if (hostinfoOf n).2 = [] then Except.ok none
  else if (hostinfoOf n).2.all Char.isDigit then
    (if digitsVal (hostinfoOf n).2 ≤ 65535 then Except.ok (some (digitsVal (hostinfoOf n).2))
     else Except.error ())
  else Except.error ()

/-- Model of `urllib.parse.urlunparse` for components with a nonempty
netloc: empty params/query/fragment are dropped together with their
delimiters. -/
def urlunparse (scheme netloc path params query fragment : List Char) : List Char :=
  let p := if params = [] then path else path ++ ';' :: params
  let u := (if netloc = [] then p else '/' :: '/' :: netloc ++ p)
  let u := if scheme = [] then u else scheme ++ ':' :: u
  let u := if query = [] then u else u ++ '?' :: query
  if fragment = [] then u else u ++ '#' :: fragment

/-- Helper for the Python tuple-of-suffixes form of `str.endswith`. -/
def endsWithAny (sufs : List (List Char)) (l : List Char) : Bool :=
  sufs.any (fun s => s.isSuffixOf l)

/-- The index-file suffixes collapsed by the normalizer
(`"/index.html", "/index.htm", "/index.php"`). -/
def indexSuffixes : List (List Char) :=
  [('/' :: "index.html".data), ('/' :: "index.htm".data), ('/' :: "index.php".data)]

/-- The static-page extensions for which the query string is dropped. -/
def staticSuffixes : List (List Char) :=
  [".html".data, ".htm".data, ".php".data, ".asp".data, ".aspx".data]

/-- Model of `str.rfind('/') + 1` slicing: keep everything up to and
including the last `/` (empty when there is no slash, as `path[:0]`). -/
def upToLastSlash (p : List Char) : List Char :=
  match lastSplit '/' p with
  | some r => r.1 ++ ['/']
  | none => []

/-- The netloc computed by `_normalize_url` (lines 333 and 341-342): the
lowercased netloc, or the bare hostname when the explicit port is 80 or
443.  Reading `parsed.port` at line 341 can raise `ValueError`, which
`_normalize_url` does not catch; the error propagates. -/
def normNetloc (parsed : ParsedUrl) : Except Unit (List Char) :=
  match netlocPort parsed.netloc with
  | Except.error e => Except.error e
  | Except.ok port =>
      Except.ok (if port = some 80 ∨ port = some 443 then netlocHostname parsed.netloc
        else lower parsed.netloc)

/-- The path computed by `_normalize_url` (lines 334, 337-338 and
345-346): lowercase, strip a trailing slash from a non-root path, then
collapse a trailing index file to its directory. -/
def normPath (parsed : ParsedUrl) : List Char :=
  let path0 := lower parsed.path
  let path1 := if path0 ≠ ['/'] ∧ path0.getLast? = some '/' then path0.dropLast else path0
  if endsWithAny indexSuffixes path1 then upToLastSlash path1 else path1

/-- The query kept by `_normalize_url` (lines 349-352): dropped when the
final path ends in a static-page extension. -/
def normQuery (parsed : ParsedUrl) : List Char :=
  if endsWithAny staticSuffixes (normPath parsed) then [] else parsed.query

/-- Embedding of `WebCrawler._normalize_url` (crawler.py lines 329-362),
rule for rule: lowercase netloc and path, strip a trailing slash from a
non-root path, replace the netloc by the bare hostname when the explicit
port is 80 or 443 — the `parsed.port` read at line 341 is the one step
that can raise, and the function does not catch the `ValueError` —
collapse a trailing index file to its directory, drop the query for
static-page extensions, and drop params and fragment in the reassembly.
The stages are split into `normNetloc`, `normPath` and `normQuery`
above, which depend on disjoint parts of the parse exactly as the
source's sequential locals do; the pure path and query stages commute
with the port read at line 341, so raising first loses nothing. -/
def normalizeList (url : List Char) : Except Unit (List Char) :=
  match normNetloc (urlparse url) with
  | Except.error e => Except.error e
  | Except.ok netloc1 =>
      Except.ok (urlunparse (urlparse url).scheme netloc1 (normPath (urlparse url)) []
        (normQuery (urlparse url)) [])

/-- String-level total wrapper of `WebCrawler._normalize_url`, applied by
the statements below only to URLs on which `_normalize_url` raises
nothing (the source propagates the `ValueError`; `normalizeList` is the
exception-aware embedding, and the theorems about raising or about
idempotence are stated in terms of it).  On a raising input the wrapper
returns its argument, a value no theorem depends on. -/
def normalize_url (url : String) : String :=
  match normalizeList url.data with
  | Except.ok l => ⟨l⟩
  | Except.error _ => url

/-! ## Model of the crawl loop's frontier/visited state machine

One iteration of the `while self.queue:` loop of `WebCrawler.crawl`
(crawler.py lines 931-1038), restricted to the components the frontier
claims are about: the queue of `(url, depth)` pairs, the visited set and
the configured `max_depth`.  The per-iteration outcomes of the external
collaborators (domain filter configuration, robots.txt, the duplicate
check against the optional database, and the network fetch) are supplied
as an `IterEnv` oracle; `fetch = none` models an exception raised inside
the per-URL `try` block, `fetch = some links` a successful fetch whose
extracted links are `links`. -/

structure CrawlState where
  queue : List (String × Nat)
  visited : List String
  max_depth : Nat
deriving DecidableEq, Repr

structure IterEnv where
  domain_ok : Bool
  robots_ok : Bool
  db_skip : Bool
  fetch : Option (List String)
deriving DecidableEq, Repr

/-- Initial crawler state built by `WebCrawler.__init__` (crawler.py lines
277-297): every seed URL is appended to the queue, unnormalized, at
depth 0, and the visited set starts empty. -/
def init_state (seed_urls : List String) (max_depth : Nat) : CrawlState :=
  ⟨seed_urls.map (fun u => (u, 0)), [], max_depth⟩

/-- One iteration of the crawl loop.  Returns the successor state together
with the list of URLs for which an HTTP fetch was issued this iteration
(empty or a singleton).  Mirrors, in source order: the dequeue (line 932),
the visited/depth skip (line 935), the domain-filter, robots and database
skips which mark the URL visited without fetching (lines 939-954), the
`visited.add` before the fetch (line 960), and on a successful fetch the
link-extraction loop that appends `(link, depth + 1)` for every extracted
link not in the visited set, only when `depth < max_depth`
(lines 1031-1035).  Note the enqueue guard checks the raw link against
`visited` only: there is no normalization and no check against the queue. -/
def crawl_step : IterEnv → CrawlState → CrawlState × List String
  | _, ⟨[], visited, max_depth⟩ => (⟨[], visited, max_depth⟩, [])
  | e, ⟨(url, depth) :: rest, visited, max_depth⟩ =>
      if url ∈ visited ∨ depth > max_depth then
        (⟨rest, visited, max_depth⟩, [])
      else if ¬ e.domain_ok ∨ ¬ e.robots_ok ∨ e.db_skip then
        (⟨rest, url :: visited, max_depth⟩, [])
      else
        match e.fetch with
        | none => (⟨rest, url :: visited, max_depth⟩, [url])
        | some links =>
            let new_entries :=
              if depth < max_depth then
                (links.filter (fun l => l ∉ url :: visited)).map (fun l => (l, depth + 1))
              else []
            (⟨rest ++ new_entries, url :: visited, max_depth⟩, [url])

/-- Run the crawl loop for one oracle outcome per iteration, collecting the
fetched URLs.  A run of every finite length is a prefix of the loop's
execution (the loop itself stops on an empty queue, after which
`crawl_step` is the identity and fetches nothing). -/
def crawl_run : List IterEnv → CrawlState → CrawlState × List String
  | [], s => (s, [])
  | e :: es, s =>
      let r := crawl_step e s
      let r' := crawl_run es r.1
      (r'.1, r.2 ++ r'.2)

/-! ## Model of the checkpoint state (`_save_checkpoint` / `load_checkpoint`)

`CrawlerVars` collects exactly the `WebCrawler` attributes that the
checkpoint code reads and writes (plus `gemini_api_key`, which it
deliberately does not save).  Floats are modelled as rationals, the
visited set as a list, `Counter` as an association list. -/

structure ResultRecord where
  url : String
  title : String
  relevance_score : ℚ
  depth : Nat
  crawl_time : String
  content : Option String
deriving DecidableEq, Repr

structure CrawlerVars where
  keywords : List String
  seed_urls : List String
  max_depth : Nat
  delay : ℚ
  visited : List String
  queue : List (String × Nat)
  results : List ResultRecord
  use_stemming : Bool
  use_lemmatization : Bool
  remove_stopwords : Bool
  use_tfidf : Bool
  min_relevance_score : ℚ
  document_frequencies : List (String × Nat)
  total_documents : Nat
  user_agent : String
  stay_in_domain : Bool
  allowed_domains : Option (List String)
  excluded_domains : Option (List String)
  regex_pattern : Option String
  seed_domains : Option (List String)
  gemini_api_key : Option String
deriving DecidableEq, Repr

/-- The JSON object written by `WebCrawler._save_checkpoint` (crawler.py
lines 652-676): one field per dictionary key, in source order.  There is
no `gemini_api_key` field — the source comment reads "Deliberately not
saving gemini_api_key for security reasons". -/
structure CheckpointData where
  timestamp : String
  keywords : List String
  seed_urls : List String
  max_depth : Nat
  delay : ℚ
  visited : List String
  queue : List (String × Nat)
  results : List ResultRecord
  use_stemming : Bool
  use_lemmatization : Bool
  remove_stopwords : Bool
  use_tfidf : Bool
  min_relevance_score : ℚ
  document_frequencies : List (String × Nat)
  total_documents : Nat
  user_agent : String
  stay_in_domain : Bool
  allowed_domains : Option (List String)
  excluded_domains : Option (List String)
  regex_pattern : Option String
  seed_domains : Option (List String)
deriving DecidableEq, Repr

/-- Embedding of the `checkpoint_data` dictionary built by
`_save_checkpoint`: a pure function of the crawler state and the
timestamp taken when saving. -/
def checkpoint_data (self : CrawlerVars) (timestamp : String) : CheckpointData :=
  ⟨timestamp, self.keywords, self.seed_urls, self.max_depth, self.delay,
    self.visited, self.queue, self.results, self.use_stemming,
    self.use_lemmatization, self.remove_stopwords, self.use_tfidf,
    self.min_relevance_score, self.document_frequencies, self.total_documents,
    self.user_agent, self.stay_in_domain, self.allowed_domains,
    self.excluded_domains, self.regex_pattern, self.seed_domains⟩

/-- A field of a parsed checkpoint JSON object, as seen by
`load_checkpoint`: absent from the object, present with a value of a type
the restoring conversion accepts, or present but malformed so that the
conversion (`set(...)`, `deque(...)`, `Counter(...)`) raises. -/
inductive CField (α : Type) where
  | absent
  | malformed
  | val (a : α)
deriving DecidableEq, Repr

/-- A checkpoint file that parsed as JSON.  Fields restored by plain
assignment can never raise, so they are `Option`; the three fields whose
restoration converts the value (`visited` via `set`, `queue` via `deque`,
`document_frequencies` via `Counter`) can raise on a malformed value and
are `CField`. -/
structure CheckpointFile where
  keywords : Option (List String)
  seed_urls : Option (List String)
  max_depth : Option Nat
  delay : Option ℚ
  visited : CField (List String)
  queue : CField (List (String × Nat))
  results : Option (List ResultRecord)
  use_stemming : Option Bool
  use_lemmatization : Option Bool
  remove_stopwords : Option Bool
  use_tfidf : Option Bool
  min_relevance_score : Option ℚ
  document_frequencies : CField (List (String × Nat))
  total_documents : Option Nat
  user_agent : Option String
  stay_in_domain : Option Bool
  allowed_domains : Option (Option (List String))
  excluded_domains : Option (Option (List String))
  regex_pattern : Option (Option String)
  seed_domains : Option (Option (List String))
deriving Repr

/-- Embedding of `WebCrawler.load_checkpoint` (crawler.py lines 777-838).
`file = none` models `open`/`json.load` raising (missing file or corrupt
JSON) — this happens before any assignment to `self`, so the state is
returned untouched.  Otherwise the fields are restored strictly in source
order; the whole body runs inside one `try`, so when a conversion raises
midway the `except` returns `False` with all assignments made so far kept.
Defaults mirror the source: `visited`, `queue`, `results` and
`document_frequencies` default to empty and `total_documents` to 0 when
absent, every other field defaults to its current value. -/
def load_checkpoint (self : CrawlerVars) (file : Option CheckpointFile) :
    Bool × CrawlerVars :=
  match file with
  | none => (false, self)
  | some cp =>
      let s := { self with
        keywords := cp.keywords.getD self.keywords,
        seed_urls := cp.seed_urls.getD self.seed_urls,
        max_depth := cp.max_depth.getD self.max_depth,
        delay := cp.delay.getD self.delay }
      match cp.visited with
      | CField.malformed => (false, s)
      | cv =>
          let s := { s with
            visited := (match cv with | CField.val l => l | _ => ([] : List String)) }
          match cp.queue with
          | CField.malformed => (false, s)
          | cq =>
              let s := { s with
                queue := (match cq with | CField.val l => l | _ => []),
                results := cp.results.getD [],
                use_stemming := cp.use_stemming.getD self.use_stemming,
                use_lemmatization := cp.use_lemmatization.getD self.use_lemmatization,
                remove_stopwords := cp.remove_stopwords.getD self.remove_stopwords,
                use_tfidf := cp.use_tfidf.getD self.use_tfidf,
                min_relevance_score := cp.min_relevance_score.getD self.min_relevance_score }
              match cp.document_frequencies with
              | CField.malformed => (false, s)
              | cd =>
                  let s := { s with
                    document_frequencies := (match cd with | CField.val l => l | _ => []),
                    total_documents := cp.total_documents.getD 0,
                    user_agent := cp.user_agent.getD self.user_agent,
                    stay_in_domain := cp.stay_in_domain.getD self.stay_in_domain,
                    allowed_domains := cp.allowed_domains.getD self.allowed_domains,
                    excluded_domains := cp.excluded_domains.getD self.excluded_domains,
                    regex_pattern := cp.regex_pattern.getD self.regex_pattern,
                    seed_domains := cp.seed_domains.getD self.seed_domains }
                  (true, s)

/-- A concrete crawler state used in the C2 counterexample. -/
def c2_state : CrawlerVars :=
  ⟨["lean"], ["http://a.test/"], 3, 1, [], [], [], false, false, false, false,
    1/10, [], 0, "WebCrawler/1.0 (Educational Project)", false, none, none, none,
    none, none⟩

/-- A parsed checkpoint whose `max_depth` field is present but whose
`visited` field is malformed (e.g. a number instead of a list), so that
`set(checkpoint_data.get("visited", []))` raises after `max_depth` was
already restored. -/
def c2_file : CheckpointFile :=
  ⟨none, none, some 99, none, CField.malformed, CField.absent, none, none, none,
    none, none, none, CField.absent, none, none, none, none, none, none, none⟩

/-! ## Model of the politeness controller

Python dictionaries keyed by domain (`self.domain_access_times`,
`self.robot_parsers`) are modelled as association lists. -/

def dictGet {α : Type} (l : List (String × α)) (k : String) : Option α :=
  match l with
  | [] => none
  | (k', v) :: rest => if k' = k then some v else dictGet rest k

def dictSet {α : Type} (l : List (String × α)) (k : String) (v : α) :
    List (String × α) :=
  match l with
  | [] => [(k, v)]
  | (k', v') :: rest => if k' = k then (k', v) :: rest else (k', v') :: dictSet rest k v

/-- Model of `urlparse(url).netloc`, the domain key used by the rate
limiter and the robots cache. -/
def netlocOf (url : String) : String := ⟨(urlparse url.data).netloc⟩

/-- The sleep performed by `WebCrawler._respect_domain_rate_limits`
(crawler.py lines 453-482) when called at clock reading `t`: when the
domain has been accessed before and the elapsed time is below the
configured delay, sleep the remaining difference (guarded to positive
values as in the source), otherwise do not sleep. -/
def rate_limit_sleep (delay : ℚ) (times : List (String × ℚ)) (domain : String)
    (t : ℚ) : ℚ :=
  match dictGet times domain with
  | none => 0
  | some last =>
      let elapsed := t - last
      if elapsed < delay then
        (if delay - elapsed > 0 then delay - elapsed else 0)
      else 0

/-- Embedding of `_respect_domain_rate_limits`: `t1` is the `time.time()`
reading taken on entry (line 462) and `t2` the fresh reading taken after
any sleep (line 477); the domain's last-access entry is set to `t2`, i.e.
only after the wait completed.  Returns the sleep duration and the
updated access-time table.  Any model of real time satisfies
`t1 + sleep ≤ t2`. -/
def respect_domain_rate_limits (delay : ℚ) (times : List (String × ℚ))
    (url : String) (t1 t2 : ℚ) : ℚ × List (String × ℚ) :=
  (rate_limit_sleep delay times (netlocOf url) t1, dictSet times (netlocOf url) t2)

/-- A cached robots.txt parser: either a parsed ruleset (its `can_fetch`
method, taking user agent and URL) or the permissive fallback parser the
crawler builds with `allow_all = True`. -/
inductive RobotParser where
  | parsed (can_fetch : String → String → Bool)
  | permissive

/-- Embedding of `WebCrawler._get_robot_rules` (crawler.py lines
364-403).  `fetchRobots domain` is the oracle for
`RobotFileParser.read()`: `Except.ok f` when the robots file was fetched
and parsed into ruleset `f`, `Except.error ()` when reading raised.  On a
read failure the permissive fallback is cached for the domain and
returned. -/
def get_robot_rules (fetchRobots : String → Except Unit (String → String → Bool))
    (robot_parsers : List (String × RobotParser)) (url : String) :
    RobotParser × List (String × RobotParser) :=
  let domain := netlocOf url
  match dictGet robot_parsers domain with
  | some p => (p, robot_parsers)
  | none =>
      match fetchRobots domain with
      | Except.ok f =>
          (RobotParser.parsed f, dictSet robot_parsers domain (RobotParser.parsed f))
      | Except.error _ =>
          (RobotParser.permissive, dictSet robot_parsers domain RobotParser.permissive)

/-- Embedding of `WebCrawler._can_fetch` (crawler.py lines 405-424): the
permissive parser (`allow_all`) always answers `True`; otherwise the
parsed ruleset is consulted with the configured user agent.  This is a
total function — the source wraps the body in `try`/`except` returning
`True`, so the check never raises. -/
def can_fetch (fetchRobots : String → Except Unit (String → String → Bool))
    (user_agent : String) (robot_parsers : List (String × RobotParser))
    (url : String) : Bool × List (String × RobotParser) :=
  let r := get_robot_rules fetchRobots robot_parsers url
  match r.1 with
  | RobotParser.permissive => (true, r.2)
  | RobotParser.parsed f => (f user_agent url, r.2)

/-! ## Model of the relevance scorers

`_is_relevant` (with its collaborator `KeywordProcessor.is_relevant`) and
the incremental TF-IDF scorer `_calculate_tfidf_score`.  The external
pieces are oracles: `regex_search` models `re.search` with the
case-insensitive compiled pattern, `process_text` models the
NLTK-backed `KeywordProcessor.process_text`, and `log` models
`math.log`. -/

/-- Model of Python `str.split()` restricted to blanks: split on space
characters, discarding empty fields. -/
def splitWsAux : List Char → List Char → List String
  | [], acc => if acc = [] then [] else [⟨acc.reverse⟩]
  | c :: cs, acc =>
      if c = ' ' then
        (if acc = [] then splitWsAux cs [] else ⟨acc.reverse⟩ :: splitWsAux cs [])
      else splitWsAux cs (c :: acc)

def splitWs (s : String) : List String := splitWsAux s.data []

/-- Increment the count of `w` in an association list, appending it with
count 1 when new — one step of building a `collections.Counter`. -/
def assocBump (acc : List (String × Nat)) (w : String) : List (String × Nat) :=
  match acc with
  | [] => [(w, 1)]
  | (k, n) :: rest => if k = w then (k, n + 1) :: rest else (k, n) :: assocBump rest w

/-- Model of `collections.Counter(words)`: counts in first-occurrence
order, like a Python dict. -/
def counterOf (ws : List String) : List (String × Nat) := ws.foldl assocBump []

def dictGetD {α : Type} (l : List (String × α)) (k : String) (d : α) : α :=
  (dictGet l k).getD d

/-- The mutable scorer state of the incremental TF-IDF scorer: the
document-frequency table and the total-documents counter. -/
structure TfidfState where
  document_frequencies : List (String × Nat)
  total_documents : Nat
deriving DecidableEq, Repr

/-- A dynamically-typed Python value in `processed_text` position.  The
docstring of `_calculate_tfidf_score` says `str`, but its only caller
(`_recalculate_relevance_scores`, crawler.py line 767) passes the token
*list* returned by `KeywordProcessor.process_text`
(keyword_processor.py line 108); both shapes are representable so both
readings of the function can be examined. -/
inductive PyText where
  | pstr (s : String)
  | ptokens (l : List String)
deriving DecidableEq, Repr

/-- The `.lower()` attribute access on such a value: on a `str` it returns
the lowercased string, on a `list` it raises `AttributeError` (modelled as
`Except.error`). -/
def pyLower : PyText → Except Unit String
  | PyText.pstr s => Except.ok (lowerStr s)
  | PyText.ptokens _ => Except.error ()

/-- The `.split()` attribute access on such a value: on a `str` it splits
on whitespace, on a `list` it raises `AttributeError`. -/
def pySplit : PyText → Except Unit (List String)
  | PyText.pstr s => Except.ok (splitWs s)
  | PyText.ptokens _ => Except.error ()

/-- One iteration of the `for keyword in self.keywords` loop of
`_calculate_tfidf_score` (crawler.py lines 1094-1110).  Line 1095 calls
`.split()` on the *list* returned by
`self.keyword_processor.process_text(keyword)`, which raises
`AttributeError`; the iteration otherwise overwrites
`keyword_terms`/`keyword_score` (the dedented block at lines 1112-1117
sits outside the loop, so only the last pair survives it, carried here as
the fold accumulator; `none` models the variables being still unbound). -/
def tfidf_keyword_step (log : ℚ → ℚ) (process_text : String → List String)
    (term_freqs : List (String × Nat)) (st : TfidfState)
    (acc : Except Unit (Option (List String × ℚ))) (keyword : String) :
    Except Unit (Option (List String × ℚ)) :=
  Except.bind acc (fun _ =>
    match pySplit (PyText.ptokens (process_text keyword)) with
    | Except.error e => Except.error e
    | Except.ok keyword_terms =>
        let keyword_score := keyword_terms.foldl
          (fun acc2 term0 =>
            let term := lowerStr term0
            match dictGet term_freqs term with
            | some tfn =>
                let tf : ℚ := (tfn : ℚ)
                let df : ℚ := ((dictGetD st.document_frequencies term 1 : Nat) : ℚ)
                let idf := log ((max 2 st.total_documents : ℚ) / df)
                acc2 + tf * idf
            | none => acc2) 0
        Except.ok (some (keyword_terms, keyword_score)))

/-- The `>= 10` documents branch of `_calculate_tfidf_score` (crawler.py
lines 1086-1133) after `processed_text.split()` succeeded with words
`ws`: run the keyword loop, then the dedented normalization block (lines
1112-1117, outside the loop) on the last iteration's values, then the
final normalization, document-frequency update and `total_documents`
increment (lines 1119-1133).  When the keyword list is empty the loop
never binds `keyword_terms` and line 1112 raises `NameError`. -/
def tfidf_full_score (log : ℚ → ℚ) (process_text : String → List String)
    (keywords : List String) (st : TfidfState) (ws : List String) :
    Except Unit (ℚ × TfidfState) :=
  let term_freqs := counterOf (ws.map lowerStr)
  match keywords.foldl (tfidf_keyword_step log process_text term_freqs st)
      (Except.ok none) with
  | Except.error e => Except.error e
  | Except.ok none => Except.error ()
  | Except.ok (some lastkv) =>
      if lastkv.1 ≠ [] then
        let keyword_score := lastkv.2 / (lastkv.1.length : ℚ)
        if keyword_score > 0 then
          let score := keyword_score / (1 : ℚ)
          let df' := term_freqs.foldl
            (fun d p => dictSet d p.1 (dictGetD d p.1 0 + 1)) st.document_frequencies
          Except.ok (min 1 (score / 10), ⟨df', st.total_documents + 1⟩)
        else Except.ok (0, st)
      else Except.ok (0, st)

/-- Embedding of `WebCrawler._calculate_tfidf_score` (crawler.py lines
1068-1133), exceptions included.  With fewer than 10 documents scored it
evaluates `processed_text.lower()` — an `AttributeError` when the
argument is the list the only call site passes — and returns the
fraction of keywords occurring as substrings, without touching the
state.  Otherwise it evaluates `processed_text.split()` (line 1087,
`AttributeError` on a list) and hands the words to the keyword loop,
whose first iteration raises at line 1095 (see `tfidf_keyword_step`). -/
def calculate_tfidf_score (log : ℚ → ℚ) (process_text : String → List String)
    (keywords : List String) (st : TfidfState) (processed_text : PyText) :
    Except Unit (ℚ × TfidfState) :=
  if st.total_documents < 10 then
    match pyLower processed_text with
    | Except.error e => Except.error e
    | Except.ok lowered_text =>
        let keyword_count :=
          (keywords.filter (fun k => decide ((lower k.data) <:+: lowered_text.data))).length
        Except.ok (min 1 ((keyword_count : ℚ) / (max 1 keywords.length : ℚ)), st)
  else
    match pySplit processed_text with
    | Except.error e => Except.error e
    | Except.ok ws => tfidf_full_score log process_text keywords st ws

/-- Embedding of `KeywordProcessor.is_relevant` (keyword_processor.py
lines 110-148) as called from the crawler (no regex pattern argument, so
the regex branch of the collaborator is not taken): the page is relevant
iff some keyword has a processed token in common with the processed page
text; a keyword whose processing yields no tokens falls back to its
lowercased self. -/
def kp_is_relevant (process_text : String → List String) (text : String)
    (keywords : List String) : Bool :=
  let text_tokens := process_text text
  keywords.any (fun keyword =>
    let keyword_tokens := process_text keyword
    let keyword_tokens := if keyword_tokens = [] then [lowerStr keyword] else keyword_tokens
    keyword_tokens.any (fun t => text_tokens.contains t))

/-- Embedding of `WebCrawler._is_relevant` (crawler.py lines 484-522).
The Python function returns a plain bool, or a `(bool, score)` pair when
`use_tfidf` is set; this is modelled by a sum.  An empty content string is
falsy; a present-but-empty regex pattern is also falsy and falls through
to keyword matching, as in Python. -/
def is_relevant (regex_search : String → String → Bool)
    (process_text : String → List String) (use_tfidf : Bool)
    (regex_pattern : Option String) (keywords : List String)
    (content : String) : Sum Bool (Bool × ℚ) :=
  if content = "" then
    (if use_tfidf then Sum.inr (false, 0) else Sum.inl false)
  else if regex_pattern.getD "" ≠ "" then
    let m := regex_search (regex_pattern.getD "") content
    (if use_tfidf then Sum.inr (m, if m then 1 else 0) else Sum.inl m)
  else
    let r := kp_is_relevant process_text content keywords
    (if use_tfidf then Sum.inr (r, if r then 1 else 0) else Sum.inl r)

theorem char_toNat_ofNat (n : Nat) (h : n < 0xd800) : (Char.ofNat n).toNat = n := by
  have hv : n.isValidChar := Or.inl h
  simp only [Char.ofNat, dif_pos hv, Char.ofNatAux, Char.toNat, UInt32.toNat]
  simp [BitVec.toNat_ofNatLt]

theorem char_toLower_idem (c : Char) : Char.toLower (Char.toLower c) = Char.toLower c := by
  unfold Char.toLower
  by_cases h : c.toNat ≥ 65 ∧ c.toNat ≤ 90
  · have hv : ((Char.ofNat (c.toNat + 32)).toNat) = c.toNat + 32 :=
      char_toNat_ofNat _ (by omega)
    rw [if_pos h, if_neg (by omega)]
  · rw [if_neg h, if_neg h]

theorem lower_idem (l : List Char) : lower (lower l) = lower l := by
  simp [lower, List.map_map, Function.comp_def, char_toLower_idem]

theorem lower_append (a b : List Char) : lower (a ++ b) = lower a ++ lower b := by
  simp [lower]

theorem lastSplit_none_not_mem {c : Char} {l : List Char} (h : lastSplit c l = none) :
    c ∉ l := by
  induction l with
  | nil => simp
  | cons x xs ih =>
      rw [lastSplit] at h
      cases hx : lastSplit c xs with
      | some r => rw [hx] at h; exact absurd h (by simp)
      | none =>
          rw [hx] at h
          by_cases hxc : x = c
          · rw [if_pos hxc] at h; exact absurd h (by simp)
          · intro hmem
            rcases List.mem_cons.mp hmem with h1 | h1
            · exact hxc h1.symm
            · exact ih hx h1

example : normalize_url "http://a.com/docs/index.html" = "http://a.com/docs/" := by decide

example : normalize_url "http://a.com/docs/" = "http://a.com/docs" := by decide

example : normalize_url "http://EX.com/" = "http://ex.com/" := by decide

example : normalize_url "http://Example.com:80/A/B.html?x=1#frag" = "http://example.com/a/b.html" := by decide

/-- The visited set only grows across an iteration. -/
theorem crawl_step_visited_mono (e : IterEnv) (s : CrawlState) :
    ∀ u ∈ s.visited, u ∈ (crawl_step e s).1.visited := by
  obtain ⟨q, visited, max_depth⟩ := s
  intro u hu
  cases q with
  | nil => exact hu
  | cons p rest =>
      obtain ⟨url, depth⟩ := p
      rw [crawl_step]
      by_cases h1 : url ∈ visited ∨ depth > max_depth
      · rw [if_pos h1]; exact hu
      · rw [if_neg h1]
        by_cases h2 : ¬ e.domain_ok ∨ ¬ e.robots_ok ∨ e.db_skip
        · rw [if_pos h2]; exact List.mem_cons_of_mem _ hu
        · rw [if_neg h2]
          cases e.fetch with
          | none => exact List.mem_cons_of_mem _ hu
          | some links => exact List.mem_cons_of_mem _ hu

/-- A URL fetched during an iteration was not yet visited before it, and is
visited after it. -/
theorem crawl_step_fetch_spec (e : IterEnv) (s : CrawlState) :
    ∀ u ∈ (crawl_step e s).2, u ∉ s.visited ∧ u ∈ (crawl_step e s).1.visited := by
  obtain ⟨q, visited, max_depth⟩ := s
  intro u hu
  cases q with
  | nil => exact absurd hu (by simp [crawl_step])
  | cons p rest =>
      obtain ⟨url, depth⟩ := p
      rw [crawl_step] at hu ⊢
      by_cases h1 : url ∈ visited ∨ depth > max_depth
      · rw [if_pos h1] at hu
        exact absurd hu (by simp)
      · rw [if_neg h1] at hu ⊢
        by_cases h2 : ¬ e.domain_ok ∨ ¬ e.robots_ok ∨ e.db_skip
        · rw [if_pos h2] at hu
          exact absurd hu (by simp)
        · rw [if_neg h2] at hu ⊢
          cases hf : e.fetch with
          | none =>
              rw [hf] at hu
              have : u = url := by simpa using hu
              subst this
              exact ⟨fun hm => h1 (Or.inl hm), List.mem_cons_self _ _⟩
          | some links =>
              rw [hf] at hu
              have : u = url := by simpa using hu
              subst this
              exact ⟨fun hm => h1 (Or.inl hm), List.mem_cons_self _ _⟩

/-- The per-iteration fetch list is duplicate-free (it is empty or a
singleton). -/
theorem crawl_step_fetch_nodup (e : IterEnv) (s : CrawlState) :
    ((crawl_step e s).2).Nodup := by
  obtain ⟨q, visited, max_depth⟩ := s
  cases q with
  | nil => simp [crawl_step]
  | cons p rest =>
      obtain ⟨url, depth⟩ := p
      rw [crawl_step]
      by_cases h1 : url ∈ visited ∨ depth > max_depth
      · rw [if_pos h1]; exact List.nodup_nil
      · rw [if_neg h1]
        by_cases h2 : ¬ e.domain_ok ∨ ¬ e.robots_ok ∨ e.db_skip
        · rw [if_pos h2]; exact List.nodup_nil
        · rw [if_neg h2]
          cases e.fetch with
          | none => exact List.nodup_singleton _
          | some links => exact List.nodup_singleton _

/-- Across a whole run: the fetched URLs are pairwise distinct and none of
them was visited at the start of the run. -/
theorem crawl_run_fetches_spec (envs : List IterEnv) (s : CrawlState) :
    ((crawl_run envs s).2).Nodup ∧ ∀ u ∈ (crawl_run envs s).2, u ∉ s.visited := by
  induction envs generalizing s with
  | nil => simp [crawl_run]
  | cons e es ih =>
      obtain ⟨ih1, ih2⟩ := ih (crawl_step e s).1
      have hstep := crawl_step_fetch_spec e s
      have hmono := crawl_step_visited_mono e s
      constructor
      · rw [crawl_run]
        apply List.Nodup.append (crawl_step_fetch_nodup e s) ih1
        intro u hu hu2
        exact ih2 u hu2 ((hstep u hu).2)
      · intro u hu hvis
        rw [crawl_run] at hu
        rcases List.mem_append.mp hu with h | h
        · exact (hstep u h).1 hvis
        · exact ih2 u h (hmono u hvis)

/-- The configured `max_depth` never changes across an iteration. -/
theorem crawl_step_max_depth (e : IterEnv) (s : CrawlState) :
    (crawl_step e s).1.max_depth = s.max_depth := by
  obtain ⟨q, visited, max_depth⟩ := s
  cases q with
  | nil => rfl
  | cons p rest =>
      obtain ⟨url, depth⟩ := p
      rw [crawl_step]
      by_cases h1 : url ∈ visited ∨ depth > max_depth
      · rw [if_pos h1]
      · rw [if_neg h1]
        by_cases h2 : ¬ e.domain_ok ∨ ¬ e.robots_ok ∨ e.db_skip
        · rw [if_pos h2]
        · rw [if_neg h2]
          cases e.fetch with
          | none => rfl
          | some links => rfl

/-- One iteration preserves the queue depth bound: a link found on a page
dequeued at depth `d` is enqueued at `d + 1` only when `d < max_depth`. -/
theorem crawl_step_preserves_depth_bound (e : IterEnv) (s : CrawlState)
    (h : ∀ p ∈ s.queue, p.2 ≤ s.max_depth) :
    ∀ p ∈ (crawl_step e s).1.queue, p.2 ≤ s.max_depth := by
  obtain ⟨q, visited, max_depth⟩ := s
  cases q with
  | nil => exact h
  | cons hd rest =>
      obtain ⟨url, depth⟩ := hd
      have hrest : ∀ p ∈ rest, p.2 ≤ max_depth := fun p hp =>
        h p (List.mem_cons_of_mem _ hp)
      rw [crawl_step]
      by_cases h1 : url ∈ visited ∨ depth > max_depth
      · rw [if_pos h1]; exact hrest
      · rw [if_neg h1]
        by_cases h2 : ¬ e.domain_ok ∨ ¬ e.robots_ok ∨ e.db_skip
        · rw [if_pos h2]; exact hrest
        · rw [if_neg h2]
          cases e.fetch with
          | none => exact hrest
          | some links =>
              intro p hp
              rcases List.mem_append.mp hp with hp' | hp'
              · exact hrest p hp'
              · by_cases hd2 : depth < max_depth
                · rw [if_pos hd2] at hp'
                  obtain ⟨l, _, rfl⟩ := List.mem_map.mp hp'
                  exact hd2
                · rw [if_neg hd2] at hp'
                  exact absurd hp' (by simp)

/-- A run preserves the queue depth bound. -/
theorem crawl_run_preserves_depth_bound (envs : List IterEnv) (s : CrawlState)
    (h : ∀ p ∈ s.queue, p.2 ≤ s.max_depth) :
    ∀ p ∈ (crawl_run envs s).1.queue, p.2 ≤ s.max_depth := by
  induction envs generalizing s with
  | nil => exact h
  | cons e es ih =>
      intro p hp
      rw [crawl_run] at hp
      have hstep := crawl_step_preserves_depth_bound e s h
      rw [← crawl_step_max_depth e s] at hstep
      have := ih (crawl_step e s).1 hstep p hp
      rwa [crawl_step_max_depth e s] at this

/-- Claim C1, as stated, is false: with two seed URLs that differ only in
the case of the host, both are fetched, so the same normalized URL key is
fetched twice during one session (the crawl loop compares raw URL strings
and never consults `_normalize_url`). -/
theorem crawl_refetches_normalized_url :
    ¬ (((crawl_run [⟨true, true, false, some []⟩, ⟨true, true, false, some []⟩]
          (init_state ["http://EX.com/", "http://ex.com/"] 2)).2).map normalize_url).Nodup := by
  decide

/-- Claim C1 (corrected): enqueuing a discovered link is skipped only when
the raw (un-normalized) URL string is already in the visited set; a URL
already present in the queue may be enqueued a second time, but the
dequeue-time visited check guarantees that no exact URL string is ever
fetched twice during a session. -/
theorem crawl_fetches_nodup (envs : List IterEnv) (s : CrawlState) :
    ((crawl_run envs s).2).Nodup :=
  (crawl_run_fetches_spec envs s).1

/-- Claim C6: starting from the initial state (seeds at depth 0), every
entry ever present in the frontier has depth at most the configured
maximum depth, because a link found at depth `d` is enqueued at `d + 1`
only when `d < max_depth`. -/
theorem queue_depth_le_max (envs : List IterEnv) (seed_urls : List String)
    (max_depth : Nat) :
    ∀ p ∈ (crawl_run envs (init_state seed_urls max_depth)).1.queue, p.2 ≤ max_depth := by
  have h0 : ∀ p ∈ (init_state seed_urls max_depth).queue, p.2 ≤ max_depth := by
    intro p hp
    obtain ⟨u, _, rfl⟩ := List.mem_map.mp hp
    exact Nat.zero_le _
  exact crawl_run_preserves_depth_bound envs _ h0

/-- Witness for C6 at a concrete run. -/
theorem queue_depth_le_max_witness :
    (("http://a.test/", 0) ∈
        (crawl_run [] (init_state ["http://a.test/"] 3)).1.queue) ∧
      (("http://a.test/", 0) : String × Nat).2 ≤ 3 :=
  ⟨by decide, queue_depth_le_max [] ["http://a.test/"] 3 _ (by decide)⟩

/-- Claim C7, as stated, is false: after the first page (depth 0) links to
the second seed URL, the queue holds a stale duplicate of that URL, and
once the second seed is processed the URL is simultaneously in the queue
and in the visited set between iterations. -/
theorem queue_visited_overlap :
    "http://b.test/" ∈
        ((crawl_run [⟨true, true, false, some ["http://b.test/"]⟩, ⟨true, true, false, some []⟩]
            (init_state ["http://a.test/", "http://b.test/"] 2)).1.queue).map Prod.fst ∧
      "http://b.test/" ∈
        (crawl_run [⟨true, true, false, some ["http://b.test/"]⟩, ⟨true, true, false, some []⟩]
            (init_state ["http://a.test/", "http://b.test/"] 2)).1.visited := by
  decide

/-- Claim C7 (corrected): a URL may appear in the queue and the visited set
at once (stale queue duplicates survive), but such entries are inert: a
URL that is in the visited set is never fetched by any later iteration. -/
theorem visited_not_refetched (envs : List IterEnv) (s : CrawlState) (u : String)
    (h : u ∈ s.visited) : u ∉ (crawl_run envs s).2 :=
  fun hmem => (crawl_run_fetches_spec envs s).2 u hmem h

/-- Witness for the corrected C7: a visited URL sitting in the queue is not
fetched when its entry is dequeued. -/
theorem visited_not_refetched_witness :
    ("http://a.test/" ∈ (⟨[("http://a.test/", 0)], ["http://a.test/"], 1⟩ : CrawlState).visited) ∧
      "http://a.test/" ∉
        (crawl_run [⟨true, true, false, some []⟩]
           (⟨[("http://a.test/", 0)], ["http://a.test/"], 1⟩ : CrawlState)).2 :=
  ⟨by decide,
    visited_not_refetched [⟨true, true, false, some []⟩] _ "http://a.test/" (by decide)⟩

/-- Claim C3: the serialized checkpoint contains no authentication
material — two crawler states that differ only in `gemini_api_key`
produce identical checkpoint data, for every timestamp. -/
theorem checkpoint_excludes_api_key (s : CrawlerVars) (k : Option String) (t : String) :
    checkpoint_data { s with gemini_api_key := k } t = checkpoint_data s t := rfl

/-- Claim C2, as stated, is false: on a checkpoint that parses but has a
malformed `visited` field, `load_checkpoint` returns `False` yet has
already overwritten `max_depth` — the state is partially merged. -/
theorem load_checkpoint_partial_merge :
    (load_checkpoint c2_state (some c2_file)).1 = false ∧
      (load_checkpoint c2_state (some c2_file)).2.max_depth = 99 ∧
      c2_state.max_depth = 3 :=
  ⟨rfl, rfl, rfl⟩

/-- Claim C2 (corrected): the all-or-nothing guarantee holds exactly for
the errors raised before field restoration starts — a missing file or
corrupt JSON makes `load_checkpoint` return `False` with the live state
untouched.  (A malformed field inside a well-formed JSON object still
returns `False` but may leave a partial merge, per the counterexample.) -/
theorem load_checkpoint_io_error_preserves_state (self : CrawlerVars) :
    load_checkpoint self none = (false, self) := rfl

theorem dictGet_dictSet {α : Type} (l : List (String × α)) (k : String) (v : α) :
    dictGet (dictSet l k v) k = some v := by
  induction l with
  | nil => simp [dictGet, dictSet]
  | cons p rest ih =>
      obtain ⟨k', v'⟩ := p
      by_cases h : k' = k
      · simp [dictGet, dictSet, h]
      · simp [dictGet, dictSet, h, ih]

/-- Claim C4: when the domain has a recorded last access `last`, the time
`t2` at which the wait completes (and which becomes the new recorded
timestamp) satisfies `last + delay ≤ t2`; hence two consecutive completed
calls for one domain are spaced by at least the configured delay, measured
from actual fetch start.  The only temporal assumption is
`t1 + sleep ≤ t2`: the clock cannot complete a sleep early. -/
theorem rate_limit_spacing (delay last t1 t2 : ℚ) (times : List (String × ℚ))
    (url : String)
    (hlast : dictGet times (netlocOf url) = some last)
    (ht : t1 + rate_limit_sleep delay times (netlocOf url) t1 ≤ t2) :
    last + delay ≤ t2 ∧
      dictGet (respect_domain_rate_limits delay times url t1 t2).2 (netlocOf url) =
        some t2 := by
  refine ⟨?_, dictGet_dictSet ..⟩
  have hF : rate_limit_sleep delay times (netlocOf url) t1 =
      (if t1 - last < delay then
        (if delay - (t1 - last) > 0 then delay - (t1 - last) else 0) else 0) := by
    rw [rate_limit_sleep, hlast]
  rw [hF] at ht
  by_cases h1 : t1 - last < delay
  · rw [if_pos h1] at ht
    have h2 : delay - (t1 - last) > 0 := by linarith
    rw [if_pos h2] at ht
    linarith
  · rw [if_neg h1] at ht
    linarith

/-- Witness for C4 at concrete times: last access at 10, delay 2, wait
entered at 11, so the sleep is 1 and the call completes at some `t2 ≥ 12`;
here `t2 = 13`. -/
theorem rate_limit_spacing_witness :
    (dictGet [("h", (10 : ℚ))] (netlocOf "http://h/") = some 10) ∧
      ((11 : ℚ) + rate_limit_sleep 2 [("h", (10 : ℚ))] (netlocOf "http://h/") 11 ≤ 13) ∧
      ((10 : ℚ) + 2 ≤ 13 ∧
        dictGet (respect_domain_rate_limits 2 [("h", (10 : ℚ))] "http://h/" 11 13).2
            (netlocOf "http://h/") = some 13) := by
  have hn : netlocOf "http://h/" = "h" := rfl
  have h1 : dictGet [("h", (10 : ℚ))] (netlocOf "http://h/") = some 10 := by
    rw [hn]; rfl
  have h2 : (11 : ℚ) + rate_limit_sleep 2 [("h", (10 : ℚ))] (netlocOf "http://h/") 11 ≤ 13 := by
    rw [hn]
    norm_num [rate_limit_sleep, dictGet]
  exact ⟨h1, h2, rate_limit_spacing 2 10 11 13 [("h", (10 : ℚ))] "http://h/" h1 h2⟩

/-- Claim C5: when a domain's robots.txt cannot be fetched or parsed, the
check succeeds, the permissive fallback is cached for the domain, and with
that cache every URL of the same domain passes the robots check. -/
theorem robots_failure_permissive
    (fetchRobots : String → Except Unit (String → String → Bool))
    (ua : String) (robot_parsers : List (String × RobotParser)) (url : String)
    (hmiss : dictGet robot_parsers (netlocOf url) = none)
    (hfail : fetchRobots (netlocOf url) = Except.error ()) :
    (can_fetch fetchRobots ua robot_parsers url).1 = true ∧
      dictGet (can_fetch fetchRobots ua robot_parsers url).2 (netlocOf url) =
        some RobotParser.permissive ∧
      ∀ url2 : String, netlocOf url2 = netlocOf url →
        (can_fetch fetchRobots ua (can_fetch fetchRobots ua robot_parsers url).2 url2).1 =
          true := by
  have hc : can_fetch fetchRobots ua robot_parsers url =
      (true, dictSet robot_parsers (netlocOf url) RobotParser.permissive) := by
    simp only [can_fetch, get_robot_rules, hmiss, hfail]
  refine ⟨by rw [hc], by rw [hc]; exact dictGet_dictSet .., ?_⟩
  intro url2 h2
  rw [hc]
  simp only [can_fetch, get_robot_rules, h2, dictGet_dictSet]

/-- Witness for C5: empty cache, an oracle whose robots fetch always
fails, and two URLs of the same domain. -/
theorem robots_failure_permissive_witness :
    (dictGet ([] : List (String × RobotParser)) (netlocOf "http://x.test/a") = none) ∧
      ((fun _ : String => (Except.error () : Except Unit (String → String → Bool)))
          (netlocOf "http://x.test/a") = Except.error ()) ∧
      ((can_fetch (fun _ => Except.error ()) "WebCrawler/1.0 (Educational Project)" [] "http://x.test/a").1 = true ∧
        dictGet (can_fetch (fun _ => Except.error ()) "WebCrawler/1.0 (Educational Project)" [] "http://x.test/a").2
            (netlocOf "http://x.test/a") = some RobotParser.permissive ∧
        ∀ url2 : String, netlocOf url2 = netlocOf "http://x.test/a" →
          (can_fetch (fun _ => Except.error ()) "WebCrawler/1.0 (Educational Project)"
              (can_fetch (fun _ => Except.error ()) "WebCrawler/1.0 (Educational Project)" [] "http://x.test/a").2
              url2).1 = true) :=
  ⟨rfl, rfl,
    robots_failure_permissive (fun _ => Except.error ())
      "WebCrawler/1.0 (Educational Project)" [] "http://x.test/a" rfl rfl⟩

/-- A keyword-loop iteration always raises: on an error accumulator the
error propagates, and otherwise line 1095 calls `.split()` on the list
returned by `process_text`. -/
theorem tfidf_step_error (log : ℚ → ℚ) (process_text : String → List String)
    (term_freqs : List (String × Nat)) (st : TfidfState)
    (acc : Except Unit (Option (List String × ℚ))) (keyword : String) :
    tfidf_keyword_step log process_text term_freqs st acc keyword = Except.error () := by
  cases acc with
  | error e => cases e; rfl
  | ok v => rfl

/-- Folding a step that always returns an error over a nonempty list
returns that error. -/
theorem foldl_all_error {σ α : Type} {f : Except Unit σ → α → Except Unit σ}
    (hf : ∀ x a, f x a = Except.error ()) (l : List α) (x : Except Unit σ) (a0 : α) :
    (a0 :: l).foldl f x = Except.error () := by
  induction l generalizing x a0 with
  | nil => exact hf x a0
  | cons b bs ih =>
      show (b :: bs).foldl f (f x a0) = Except.error ()
      exact ih (f x a0) b

/-- The keyword loop of `_calculate_tfidf_score`, run on at least one
keyword, raises whatever the term frequencies are. -/
theorem tfidf_loop_error (log : ℚ → ℚ) (process_text : String → List String)
    (st : TfidfState) (keyword0 : String) (keywords : List String)
    (tf : List (String × Nat)) :
    (keyword0 :: keywords).foldl (tfidf_keyword_step log process_text tf st)
      (Except.ok none) = Except.error () :=
  foldl_all_error (tfidf_step_error log process_text tf st) keywords (Except.ok none) keyword0

/-- Claim C9 is a code bug: in the `>= 10` documents regime,
`_calculate_tfidf_score` never computes the claimed TF-IDF formula and
never touches the scorer state — it raises `AttributeError`
unconditionally, for every `math.log`, every tokenizer behaviour, every
state with at least 10 documents and every nonempty keyword list.
Called as its only call site does, with the token list returned by
`KeywordProcessor.process_text`, the `processed_text.split()` at line
1087 raises; read charitably with the docstring's `str` argument, the
loop's first line `self.keyword_processor.process_text(keyword).split()`
(line 1095) raises instead, since `process_text` returns a list
(keyword_processor.py line 108). -/
theorem tfidf_scoring_raises (log : ℚ → ℚ) (process_text : String → List String)
    (keyword0 : String) (keywords : List String) (st : TfidfState)
    (s : String) (doc : List String) (h : ¬ st.total_documents < 10) :
    calculate_tfidf_score log process_text (keyword0 :: keywords) st
        (PyText.ptokens doc) = Except.error () ∧
      calculate_tfidf_score log process_text (keyword0 :: keywords) st
        (PyText.pstr s) = Except.error () := by
  constructor
  · unfold calculate_tfidf_score
    rw [if_neg h]
    rfl
  · unfold calculate_tfidf_score
    rw [if_neg h]
    show tfidf_full_score log process_text (keyword0 :: keywords) st (splitWs s) =
      Except.error ()
    simp only [tfidf_full_score, tfidf_loop_error]

/-- Witness for C9 at the concrete failing input: 10 documents scored,
keywords `alpha` and `zzz`, document frequencies `alpha -> 2, beta -> 3`,
document `alpha alpha beta` (as the token list the caller passes, and as
the docstring's string). -/
theorem tfidf_scoring_raises_witness :
    (¬ (⟨[("alpha", 2), ("beta", 3)], 10⟩ : TfidfState).total_documents < 10) ∧
      (calculate_tfidf_score (fun q => q) (fun s => [lowerStr s]) ("alpha" :: ["zzz"])
          ⟨[("alpha", 2), ("beta", 3)], 10⟩ (PyText.ptokens ["alpha", "alpha", "beta"]) =
          Except.error () ∧
        calculate_tfidf_score (fun q => q) (fun s => [lowerStr s]) ("alpha" :: ["zzz"])
          ⟨[("alpha", 2), ("beta", 3)], 10⟩ (PyText.pstr "alpha alpha beta") =
          Except.error ()) :=
  ⟨by decide, tfidf_scoring_raises (fun q => q) (fun s => [lowerStr s]) "alpha" ["zzz"]
    ⟨[("alpha", 2), ("beta", 3)], 10⟩ "alpha alpha beta" ["alpha", "alpha", "beta"]
    (by decide)⟩

/-- Claim C10: with TF-IDF enabled, the score assigned at fetch time by
`_is_relevant` (and stored into the result record by the crawl loop,
crawler.py lines 977-1008) is exactly 1.0 when the page is judged
relevant and exactly 0.0 otherwise, for every content, pattern, keyword
list and oracle behaviour — the incremental TF-IDF state is not even an
input of this path; `_calculate_tfidf_score` is reachable only through
`_recalculate_relevance_scores` (line 767). -/
theorem initial_score_is_indicator (regex_search : String → String → Bool)
    (process_text : String → List String) (regex_pattern : Option String)
    (keywords : List String) (content : String) :
    is_relevant regex_search process_text true regex_pattern keywords content =
        Sum.inr (true, 1) ∨
      is_relevant regex_search process_text true regex_pattern keywords content =
        Sum.inr (false, 0) := by
  unfold is_relevant
  by_cases h1 : content = ""
  · rw [if_pos h1]
    right
    rfl
  · rw [if_neg h1]
    by_cases h2 : regex_pattern.getD "" ≠ ""
    · rw [if_pos h2]
      cases hm : regex_search (regex_pattern.getD "") content
      · right; simp [hm]
      · left; simp [hm]
    · rw [if_neg h2]
      cases hr : kp_is_relevant process_text content keywords
      · right; simp [hr]
      · left; simp [hr]

/-! ## Lemmas about lowercasing and URL components, towards claim C8 -/

theorem lastSplit_isSome_of_mem {c : Char} {l : List Char} (h : c ∈ l) :
    (lastSplit c l).isSome = true := by
  cases hx : lastSplit c l with
  | none => exact absurd h (lastSplit_none_not_mem hx)
  | some r => rfl

end Crawler
